import Mathlib

/-
Verification of the AudioText session controller (src/main.py).

The embedding models the pure decision logic of the program:
  - `handle_command` mirrors the Python function of the same name,
    returning the new recording flag, the exit signal, the buffer after
    any in-place mutation, and the log/print events it emits;
  - `recognize_speech` mirrors the recognition attempt, reduced to the
    outcome the external service produced;
  - `loop_step` is one iteration of the `while True` body of
    `record_loop`; `run_loop` folds it over a list of per-iteration
    adapter outcomes (or an interrupt / device failure), and
    `record_loop` wraps it with the opening and closing log events of
    the try/finally block.

Console prints carry no text payload the claims depend on, so they are
modelled as an enumeration `PrintMsg` of the distinct print statements;
log events keep their exact message strings, as written to logs.txt.
-/

namespace AudioText

/-- One line of logs.txt: a level tag and a message, as written by `log`. -/
structure LogEvent where
  level : String
  msg : String
deriving DecidableEq, Repr

/-- The distinct console print statements of main.py, one constructor each. -/
inductive PrintMsg where
  | listening
  | timeoutNoSpeech
  | recognizedText (t : String)
  | notRecognized
  | serviceError (e : String)
  | recordingStarted
  | recordingFinished
  | savedToLogs
  | finishNotActive
  | stoppedManually
  | micError (e : String)
deriving DecidableEq, Repr

/-- Boolean test that the first list is an initial segment of the second. -/
def listPrefixEq : List Char → List Char → Bool
  | [], _ => true
  | _ :: _, [] => false
  | p :: ps, c :: cs => p == c && listPrefixEq ps cs

/-- Substring search on character lists: does `pat` occur at some position? -/
def strContainsList (pat : List Char) : List Char → Bool
  | [] => listPrefixEq pat []
  | c :: cs => listPrefixEq pat (c :: cs) || strContainsList pat cs

/-- Python `pat in s`: substring containment. -/
def strContains (s pat : String) : Bool :=
  strContainsList pat.data s.data

/-- Python `s.lower()`: character-wise lowercasing. -/
def str_lower (s : String) : String :=
  ⟨s.data.map Char.toLower⟩

/-- Python `s.strip()`: drop leading and trailing whitespace. -/
def str_strip (s : String) : String :=
  ⟨((s.data.dropWhile Char.isWhitespace).reverse.dropWhile Char.isWhitespace).reverse⟩

/-- Python `" ".join(l)`. -/
def joinSpace : List String → String
  | [] => ""
  | [t] => t
  | t :: ts => t ++ " " ++ joinSpace ts

/-- The start trigger substring. -/
def startPhrase : String := "start my friend"

/-- The stop trigger substring. -/
def finishPhrase : String := "finish my friend"

/-- The guard of the buffer-append statement in `record_loop`:
`any(phrase in text.lower() for phrase in ["start my friend", "finish my friend"])`. -/
def containsTrigger (low : String) : Bool :=
  strContains low startPhrase || strContains low finishPhrase

/-- Result of `handle_command`: the returned pair `(recording_active, should_exit)`,
the buffer after the in-place `clear()` (if any), and the emitted events. -/
structure HCResult where
  recording : Bool
  shouldExit : Bool
  buffer : List String
  logs : List LogEvent
  prints : List PrintMsg
deriving DecidableEq, Repr

/-- Mirrors `handle_command(text, recording, buffer_text)` of main.py.
`text = none` models Python `text is None`; the empty string is falsy too. -/
def handle_command (text : Option String) (recording : Bool)
    (buffer_text : List String) : HCResult :=
  match text with
  | none => ⟨recording, false, buffer_text, [], []⟩
  | some t =>
    if t == "" then ⟨recording, false, buffer_text, [], []⟩
    else
      let low := str_lower t
      if strContains low startPhrase then
        if !recording then
          ⟨true, false, [], [⟨"INFO", "Recording started."⟩], [PrintMsg.recordingStarted]⟩
        else
          ⟨true, false, buffer_text, [], []⟩
      else if strContains low finishPhrase then
        if recording then
          ⟨false, true, buffer_text,
            [⟨"INFO", "Recording stopped. Text: " ++ joinSpace buffer_text⟩,
             ⟨"INFO", "Program finished by user command."⟩],
            [PrintMsg.recordingFinished, PrintMsg.savedToLogs]⟩
        else
          ⟨false, true, buffer_text,
            [⟨"INFO", "Program finished by user command."⟩],
            [PrintMsg.finishNotActive]⟩
      else ⟨recording, false, buffer_text, [], []⟩

/-- What the external recognition service did on one non-timeout attempt. -/
inductive RecogFate where
  | ok (raw : String)
  | unknownValue
  | requestError (e : String)
deriving DecidableEq, Repr

/-- Mirrors `recognize_speech`: the argument is `none` when `audio` is None
(listen timeout); otherwise the service outcome. Returns the text handed to
the controller plus the log and print events of this function. -/
def recognize_speech : Option RecogFate → Option String × List LogEvent × List PrintMsg
  | none => (none, [], [])
  | some (RecogFate.ok raw) =>
      let text := str_strip raw
      (some text, [⟨"DEBUG", "Recognized: " ++ text⟩], [PrintMsg.recognizedText text])
  | some RecogFate.unknownValue => (none, [], [PrintMsg.notRecognized])
  | some (RecogFate.requestError e) =>
      (none, [⟨"ERROR", "Recognition service error: " ++ e⟩], [PrintMsg.serviceError e])

/-- The controller state of `record_loop`: the `recording` flag and the buffer. -/
structure LoopState where
  recording : Bool
  buffer : List String
deriving DecidableEq, Repr

/-- One iteration of the `while True` body of `record_loop`, given the adapter
outcome of this iteration (`none` = listen timeout). Returns the next state,
the break signal, and the log/print events of the iteration. -/
def loop_step (fate : Option RecogFate) (s : LoopState) :
    LoopState × Bool × List LogEvent × List PrintMsg :=
  let listenPrints : List PrintMsg :=
    match fate with
    | none => [PrintMsg.timeoutNoSpeech]
    | some _ => []
  let rec_out := recognize_speech fate
  let text := rec_out.1
  let r := handle_command text s.recording s.buffer
  let prints := PrintMsg.listening :: (listenPrints ++ rec_out.2.2 ++ r.prints)
  if r.shouldExit then
    (⟨r.recording, r.buffer⟩, true, rec_out.2.1 ++ r.logs, prints)
  else
    let buffer :=
      match text with
      | none => r.buffer
      | some t =>
        if r.recording && !(t == "") && !(containsTrigger (str_lower t)) then
          r.buffer ++ [t]
        else r.buffer
    (⟨r.recording, buffer⟩, false, rec_out.2.1 ++ r.logs, prints)

/-- What happens on one pass of the loop, seen from outside: a normal
iteration with some adapter outcome, a KeyboardInterrupt, or an OSError of
the microphone (both observed between iterations, per the single-threaded
model). -/
inductive LoopInput where
  | iter (fate : Option RecogFate)
  | interrupt
  | deviceError (e : String)
deriving DecidableEq, Repr

/-- Runs the loop body over a list of inputs from state `s`. Returns the final
state, the accumulated log events, and whether the loop terminated (break,
interrupt, or device failure) before the inputs ran out. -/
def run_loop : List LoopInput → LoopState → LoopState × List LogEvent × Bool
  | [], s => (s, [], false)
  | LoopInput.interrupt :: _, s =>
      (s, [⟨"INFO", "Program interrupted manually."⟩], true)
  | LoopInput.deviceError e :: _, s =>
      (s, [⟨"ERROR", "Microphone error: " ++ e⟩], true)
  | LoopInput.iter fate :: rest, s =>
      let r := loop_step fate s
      if r.2.1 then (r.1, r.2.2.1, true)
      else
        let k := run_loop rest r.1
        (k.1, r.2.2.1 ++ k.2.1, k.2.2)

/-- The initial controller state: `recording = False`, `buffer_text = []`. -/
def initState : LoopState := ⟨false, []⟩

/-- Mirrors `record_loop`: the opening "Program started." log, the loop, and
the `finally` block's "Program closed." log. Yields `some logs` when the run
terminates on one of the exit paths, `none` when the modelled inputs are
exhausted with the loop still running (no exit, hence no cleanup yet). -/
def record_loop (inputs : List LoopInput) : Option (List LogEvent) :=
  let r := run_loop inputs initState
  if r.2.2 then
    some (⟨"INFO", "Program started."⟩ :: (r.2.1 ++ [⟨"INFO", "Program closed."⟩]))
  else none

example : strContains "say start my friend now" startPhrase = true := by decide
example : strContains "start my friendx" finishPhrase = false := by decide
example : str_lower "START My Friend" = "start my friend" := by decide
example : joinSpace ["hello world", "this is a test"] = "hello world this is a test" := by decide

/-- A string whose lowercasing contains the start trigger is not empty. -/
lemma ne_empty_of_start (t : String) (h : strContains (str_lower t) startPhrase = true) :
    (t == "") = false := by
  by_cases h0 : t = ""
  · subst h0; exact absurd h (by decide)
  · cases hb : (t == "") with
    | false => rfl
    | true => exact absurd (eq_of_beq hb) h0

/-- A string whose lowercasing contains the stop trigger is not empty. -/
lemma ne_empty_of_finish (t : String) (h : strContains (str_lower t) finishPhrase = true) :
    (t == "") = false := by
  by_cases h0 : t = ""
  · subst h0; exact absurd h (by decide)
  · cases hb : (t == "") with
    | false => rfl
    | true => exact absurd (eq_of_beq hb) h0

/-- C6: start is idempotent — for every buffer and every utterance containing
"start my friend" received while already recording, `handle_command` keeps the
buffer unchanged, keeps `recording = true`, emits no log or print event, and
returns `should_exit = false`. -/
theorem c6_idempotent_start (t : String) (buf : List String)
    (h : strContains (str_lower t) startPhrase = true) :
    handle_command (some t) true buf = ⟨true, false, buf, [], []⟩ := by
  have he := ne_empty_of_start t h
  simp [handle_command, he, h]

/-- Witness for C6 at a concrete utterance and buffer. -/
theorem c6_idempotent_start_witness :
    handle_command (some "please start my friend") true ["hello"] =
      ⟨true, false, ["hello"], [], []⟩ :=
  c6_idempotent_start "please start my friend" ["hello"] (by decide)

/-- C10: `handle_command` never returns `should_exit = true` together with
`recording = true`: whenever it signals exit, the returned recording flag is
false. -/
theorem c10_exit_not_recording (text : Option String) (rec : Bool) (buf : List String)
    (h : (handle_command text rec buf).shouldExit = true) :
    (handle_command text rec buf).recording = false := by
  cases text with
  | none => simp [handle_command] at h
  | some t =>
    by_cases he : (t == "") = true
    · simp [handle_command, he] at h
    · rw [Bool.not_eq_true] at he
      by_cases hs : strContains (str_lower t) startPhrase = true
      · cases rec <;> simp [handle_command, he, hs] at h
      · rw [Bool.not_eq_true] at hs
        by_cases hf : strContains (str_lower t) finishPhrase = true
        · cases rec <;> simp [handle_command, he, hs, hf]
        · rw [Bool.not_eq_true] at hf
          simp [handle_command, he, hs, hf] at h

/-- Witness for C10 at a concrete exiting input. -/
theorem c10_exit_not_recording_witness :
    (handle_command (some "finish my friend") true []).recording = false :=
  c10_exit_not_recording (some "finish my friend") true [] (by decide)

/-- C3 counterexample: an utterance containing both trigger substrings makes the
start branch return first, so `should_exit = false` in both states even though
the text contains "finish my friend" — the claim that every
"finish my friend"-containing utterance exits is false on the code. -/
theorem c3_both_triggers_counterexample :
    strContains (str_lower "start my friend finish my friend") finishPhrase = true ∧
    (handle_command (some "start my friend finish my friend") false []).shouldExit = false ∧
    (handle_command (some "start my friend finish my friend") true []).shouldExit = false := by
  decide

/-- C3 (amended): an utterance containing "finish my friend" but not
"start my friend" yields `should_exit = true` in any state; when the utterance
also contains "start my friend", the start branch returns first, giving
`should_exit = false` and `recording = true`. -/
theorem c3_stop_exits (t : String) (rec : Bool) (buf : List String) :
    (strContains (str_lower t) finishPhrase = true →
      strContains (str_lower t) startPhrase = false →
      (handle_command (some t) rec buf).shouldExit = true)
    ∧ (strContains (str_lower t) startPhrase = true →
      (handle_command (some t) rec buf).shouldExit = false ∧
      (handle_command (some t) rec buf).recording = true) := by
  constructor
  · intro hf hs
    have he := ne_empty_of_finish t hf
    cases rec <;> simp [handle_command, he, hs, hf]
  · intro hs
    have he := ne_empty_of_start t hs
    cases rec <;> simp [handle_command, he, hs]

/-- Witness for C3 (amended) at concrete utterances. -/
theorem c3_stop_exits_witness :
    (handle_command (some "ok finish my friend") false []).shouldExit = true ∧
    (handle_command (some "start my friend finish my friend") true []).shouldExit = false := by
  exact ⟨(c3_stop_exits "ok finish my friend" false []).1 (by decide) (by decide),
    ((c3_stop_exits "start my friend finish my friend" true []).2 (by decide)).1⟩

/-- C4 counterexample: a stop utterance while idle writes only the
"Program finished by user command." log entry; the "not active" notice is a
console print, not a log entry — refuting the claim that a "not active" log
entry is written to the log file. -/
theorem c4_idle_stop_counterexample :
    (handle_command (some "finish my friend") false []).shouldExit = true ∧
    (handle_command (some "finish my friend") false []).logs =
      [⟨"INFO", "Program finished by user command."⟩] ∧
    (handle_command (some "finish my friend") false []).prints =
      [PrintMsg.finishNotActive] := by
  decide

/-- C4 (amended): a stop utterance while idle exits without computing a
transcript; the "not active" notice is printed to the console (not logged),
and the only log entry written is "Program finished by user command.". -/
theorem c4_idle_stop (t : String) (buf : List String)
    (hf : strContains (str_lower t) finishPhrase = true)
    (hs : strContains (str_lower t) startPhrase = false) :
    handle_command (some t) false buf =
      ⟨false, true, buf, [⟨"INFO", "Program finished by user command."⟩],
        [PrintMsg.finishNotActive]⟩ := by
  have he := ne_empty_of_finish t hf
  simp [handle_command, he, hs, hf]

/-- Witness for C4 (amended) at a concrete utterance. -/
theorem c4_idle_stop_witness :
    handle_command (some "finish my friend") false ["x"] =
      ⟨false, true, ["x"], [⟨"INFO", "Program finished by user command."⟩],
        [PrintMsg.finishNotActive]⟩ :=
  c4_idle_stop "finish my friend" ["x"] (by decide) (by decide)

/-- C5 counterexample: the Unintelligible outcome (`UnknownValueError`) prints
a notice but writes no log line at all — refuting the claim that no error
outcome leaves the log without at least a DEBUG/ERROR trace. -/
theorem c5_unintelligible_counterexample :
    (recognize_speech (some RecogFate.unknownValue)).2.1 = [] ∧
    (recognize_speech (some RecogFate.unknownValue)).2.2 = [PrintMsg.notRecognized] := by
  decide

/-- C5 (amended): every recognition error outcome prints a human-readable
notice; the service error additionally writes an ERROR log line, but the
Unintelligible case writes no log line — it is reported only on the console. -/
theorem c5_error_reporting (e : String) :
    recognize_speech (some RecogFate.unknownValue) =
      (none, [], [PrintMsg.notRecognized]) ∧
    recognize_speech (some (RecogFate.requestError e)) =
      (none, [⟨"ERROR", "Recognition service error: " ++ e⟩], [PrintMsg.serviceError e]) := by
  exact ⟨rfl, rfl⟩

/-- C7: an iteration with no recognized text — listen timeout, unintelligible
audio, or a recognition service error — leaves the state (recording flag and
buffer) unchanged, signals no exit, and the loop continues: the service-error
iteration merely prepends its ERROR log line to the rest of the run. -/
theorem c7_no_text_frame (s : LoopState) (e : String) (rest : List LoopInput) :
    loop_step none s = (s, false, [], [PrintMsg.listening, PrintMsg.timeoutNoSpeech]) ∧
    loop_step (some RecogFate.unknownValue) s =
      (s, false, [], [PrintMsg.listening, PrintMsg.notRecognized]) ∧
    loop_step (some (RecogFate.requestError e)) s =
      (s, false, [⟨"ERROR", "Recognition service error: " ++ e⟩],
        [PrintMsg.listening, PrintMsg.serviceError e]) ∧
    run_loop (LoopInput.iter (some (RecogFate.requestError e)) :: rest) s =
      ((run_loop rest s).1,
        ⟨"ERROR", "Recognition service error: " ++ e⟩ :: (run_loop rest s).2.1,
        (run_loop rest s).2.2) := by
  exact ⟨rfl, rfl, rfl, rfl⟩

/-- C8: an utterance whose lowercased (stripped) text contains either trigger
substring is never appended to the buffer, in any state: the iteration leaves
the buffer unchanged, or clears it (start trigger while idle). -/
theorem c8_trigger_exclusion (s : LoopState) (raw : String)
    (h : containsTrigger (str_lower (str_strip raw)) = true) :
    (loop_step (some (RecogFate.ok raw)) s).1.buffer = s.buffer ∨
    (loop_step (some (RecogFate.ok raw)) s).1.buffer = [] := by
  obtain ⟨rec, buf⟩ := s
  by_cases he : (str_strip raw == "") = true
  · left
    simp [loop_step, recognize_speech, handle_command, he]
  · rw [Bool.not_eq_true] at he
    by_cases hs : strContains (str_lower (str_strip raw)) startPhrase = true
    · cases rec with
      | false =>
        right
        simp [loop_step, recognize_speech, handle_command, he, hs, h]
      | true =>
        left
        simp [loop_step, recognize_speech, handle_command, he, hs, h]
    · rw [Bool.not_eq_true] at hs
      by_cases hf : strContains (str_lower (str_strip raw)) finishPhrase = true
      · left
        cases rec <;>
          simp [loop_step, recognize_speech, handle_command, he, hs, hf]
      · rw [Bool.not_eq_true] at hf
        exact absurd h (by simp [containsTrigger, hs, hf])

/-- Witness for C8 at a concrete utterance embedding the start trigger. -/
theorem c8_trigger_exclusion_witness :
    (loop_step (some (RecogFate.ok "we start my friend now")) ⟨true, ["a"]⟩).1.buffer = ["a"] ∨
    (loop_step (some (RecogFate.ok "we start my friend now")) ⟨true, ["a"]⟩).1.buffer = [] :=
  c8_trigger_exclusion ⟨true, ["a"]⟩ "we start my friend now" (by decide)

/-- If the state is idle with an empty buffer, one loop iteration, whatever the
adapter outcome, does not change the buffer. -/
lemma step_idle_fixed (fate : Option RecogFate) (s : LoopState)
    (h1 : s.recording = false) (h2 : s.buffer = []) :
    (loop_step fate s).1.buffer = s.buffer := by
  obtain ⟨rec, buf⟩ := s
  simp only at h1 h2
  subst h1; subst h2
  cases fate with
  | none => rfl
  | some f =>
    cases f with
    | unknownValue => rfl
    | requestError e => rfl
    | ok raw =>
      by_cases he : (str_strip raw == "") = true
      · simp [loop_step, recognize_speech, handle_command, he]
      · rw [Bool.not_eq_true] at he
        by_cases hs : strContains (str_lower (str_strip raw)) startPhrase = true
        · simp [loop_step, recognize_speech, handle_command, he, hs, containsTrigger]
        · rw [Bool.not_eq_true] at hs
          by_cases hf : strContains (str_lower (str_strip raw)) finishPhrase = true
          · simp [loop_step, recognize_speech, handle_command, he, hs, hf]
          · rw [Bool.not_eq_true] at hf
            simp [loop_step, recognize_speech, handle_command, he, hs, hf]

/-- A non-exiting loop iteration preserves the invariant
"idle implies empty buffer". -/
lemma step_preserves_inv (fate : Option RecogFate) (s : LoopState)
    (hInv : s.recording = false → s.buffer = [])
    (hexit : (loop_step fate s).2.1 = false) :
    (loop_step fate s).1.recording = false → (loop_step fate s).1.buffer = [] := by
  obtain ⟨rec, buf⟩ := s
  cases fate with
  | none => exact hInv
  | some f =>
    cases f with
    | unknownValue => exact hInv
    | requestError e => exact hInv
    | ok raw =>
      by_cases he : (str_strip raw == "") = true
      · simpa [loop_step, recognize_speech, handle_command, he] using hInv
      · rw [Bool.not_eq_true] at he
        by_cases hs : strContains (str_lower (str_strip raw)) startPhrase = true
        · cases rec <;>
            simp [loop_step, recognize_speech, handle_command, he, hs, containsTrigger]
        · rw [Bool.not_eq_true] at hs
          by_cases hf : strContains (str_lower (str_strip raw)) finishPhrase = true
          · cases rec <;>
              simp [loop_step, recognize_speech, handle_command, he, hs, hf] at hexit ⊢
          · rw [Bool.not_eq_true] at hf
            cases rec with
            | false =>
              intro _
              have hb : buf = [] := hInv rfl
              subst hb
              simp [loop_step, recognize_speech, handle_command, he, hs, hf]
            | true =>
              simp [loop_step, recognize_speech, handle_command, he, hs, hf]

/-- The invariant "idle implies empty buffer" holds at every still-running
state reachable by the loop. -/
lemma run_loop_inv (inputs : List LoopInput) (s : LoopState)
    (hInv : s.recording = false → s.buffer = [])
    (ht : (run_loop inputs s).2.2 = false) :
    (run_loop inputs s).1.recording = false → (run_loop inputs s).1.buffer = [] := by
  induction inputs generalizing s with
  | nil => simpa [run_loop] using hInv
  | cons i rest ih =>
    cases i with
    | interrupt => simp [run_loop] at ht
    | deviceError e => simp [run_loop] at ht
    | iter fate =>
      by_cases hx : (loop_step fate s).2.1 = true
      · simp [run_loop, hx] at ht
      · rw [Bool.not_eq_true] at hx
        have h1 := step_preserves_inv fate s hInv hx
        simp only [run_loop, hx, Bool.false_eq_true, if_false] at ht ⊢
        exact ih _ h1 ht

/-- C2: at every reachable, still-running loop state that is idle
(`recording = false`), the next iteration — whatever the adapter outcome —
does not mutate the buffer at all; in particular nothing is ever appended
while `recording = false`. -/
theorem c2_idle_no_mutation (inputs : List LoopInput) (fate : Option RecogFate)
    (hrun : (run_loop inputs initState).2.2 = false)
    (hidle : (run_loop inputs initState).1.recording = false) :
    (loop_step fate (run_loop inputs initState).1).1.buffer =
      (run_loop inputs initState).1.buffer := by
  have hbuf : (run_loop inputs initState).1.buffer = [] :=
    run_loop_inv inputs initState (fun _ => rfl) hrun hidle
  exact step_idle_fixed fate _ hidle hbuf

/-- Witness for C2 at the initial state and a concrete plain utterance. -/
theorem c2_idle_no_mutation_witness :
    (loop_step (some (RecogFate.ok "hello")) (run_loop [] initState).1).1.buffer =
      (run_loop [] initState).1.buffer :=
  c2_idle_no_mutation [] (some (RecogFate.ok "hello")) (by decide) (by decide)

/-- Unfolds one non-exiting loop iteration. -/
lemma run_loop_iter_cons (fate : Option RecogFate) (rest : List LoopInput) (s : LoopState)
    (hexit : (loop_step fate s).2.1 = false) :
    run_loop (LoopInput.iter fate :: rest) s =
      ((run_loop rest (loop_step fate s).1).1,
       (loop_step fate s).2.2.1 ++ (run_loop rest (loop_step fate s).1).2.1,
       (run_loop rest (loop_step fate s).1).2.2) := by
  simp [run_loop, hexit]

/-- Unfolds one exiting loop iteration. -/
lemma run_loop_iter_exit (fate : Option RecogFate) (rest : List LoopInput) (s : LoopState)
    (hexit : (loop_step fate s).2.1 = true) :
    run_loop (LoopInput.iter fate :: rest) s =
      ((loop_step fate s).1, (loop_step fate s).2.2.1, true) := by
  simp [run_loop, hexit]

/-- Running a concatenation of inputs, when the first part does not terminate
the loop, first runs the first part and continues with the second from the
reached state, concatenating the logs. -/
lemma run_loop_append (xs ys : List LoopInput) (s : LoopState)
    (h : (run_loop xs s).2.2 = false) :
    run_loop (xs ++ ys) s =
      ((run_loop ys (run_loop xs s).1).1,
       (run_loop xs s).2.1 ++ (run_loop ys (run_loop xs s).1).2.1,
       (run_loop ys (run_loop xs s).1).2.2) := by
  induction xs generalizing s with
  | nil => simp [run_loop]
  | cons i rest ih =>
    cases i with
    | interrupt => simp [run_loop] at h
    | deviceError e => simp [run_loop] at h
    | iter fate =>
      by_cases hx : (loop_step fate s).2.1 = true
      · simp [run_loop, hx] at h
      · rw [Bool.not_eq_true] at hx
        rw [run_loop_iter_cons _ _ _ hx] at h
        simp only at h
        rw [List.cons_append, run_loop_iter_cons _ _ _ hx,
          run_loop_iter_cons _ _ _ hx, ih _ h]
        simp [List.append_assoc]

/-- C9: every terminated run of the loop ends with the "Program closed." log
event as its guaranteed final entry; a run ended by a manual interrupt logs
the INFO "Program interrupted manually." entry right before it, and a run
ended by a device failure logs the ERROR "Microphone error" entry right
before it. -/
theorem c9_guaranteed_cleanup :
    (∀ (inputs : List LoopInput) (logs : List LogEvent), record_loop inputs = some logs →
      ∃ l, logs = l ++ [⟨"INFO", "Program closed."⟩])
    ∧ (∀ inputs : List LoopInput, (run_loop inputs initState).2.2 = false →
      record_loop (inputs ++ [LoopInput.interrupt]) =
        some (⟨"INFO", "Program started."⟩ ::
          ((run_loop inputs initState).2.1 ++
            [⟨"INFO", "Program interrupted manually."⟩, ⟨"INFO", "Program closed."⟩])))
    ∧ (∀ (inputs : List LoopInput) (e : String),
        (run_loop inputs initState).2.2 = false →
      record_loop (inputs ++ [LoopInput.deviceError e]) =
        some (⟨"INFO", "Program started."⟩ ::
          ((run_loop inputs initState).2.1 ++
            [⟨"ERROR", "Microphone error: " ++ e⟩, ⟨"INFO", "Program closed."⟩]))) := by
  refine ⟨?_, ?_, ?_⟩
  · intro inputs logs h
    unfold record_loop at h
    by_cases ht : (run_loop inputs initState).2.2 = true
    · rw [if_pos ht] at h
      refine ⟨⟨"INFO", "Program started."⟩ :: (run_loop inputs initState).2.1, ?_⟩
      have := Option.some.inj h
      rw [← this]
      simp
    · rw [if_neg ht] at h
      exact absurd h (by simp)
  · intro inputs ht
    unfold record_loop
    rw [run_loop_append _ _ _ ht]
    simp [run_loop]
  · intro inputs e ht
    unfold record_loop
    rw [run_loop_append _ _ _ ht]
    simp [run_loop]

/-- Witness for C9: a run ended by an interrupt and a run ended by a device
failure, both from the initial state, with their exact closing log sequences. -/
theorem c9_guaranteed_cleanup_witness :
    record_loop [LoopInput.interrupt] =
      some [⟨"INFO", "Program started."⟩, ⟨"INFO", "Program interrupted manually."⟩,
        ⟨"INFO", "Program closed."⟩] ∧
    record_loop [LoopInput.deviceError "mic unplugged"] =
      some [⟨"INFO", "Program started."⟩, ⟨"ERROR", "Microphone error: mic unplugged"⟩,
        ⟨"INFO", "Program closed."⟩] := by
  constructor
  · have h := c9_guaranteed_cleanup.2.1 [] (by decide)
    simpa [run_loop] using h
  · have h := c9_guaranteed_cleanup.2.2 [] "mic unplugged" (by decide)
    simpa [run_loop] using h

/-- One iteration on a plain utterance mid-session: the text is appended. -/
lemma loop_step_plain (t : String) (b : List String)
    (h1 : str_strip t = t) (h2 : (t == "") = false)
    (h3 : containsTrigger (str_lower t) = false) :
    loop_step (some (RecogFate.ok t)) ⟨true, b⟩ =
      (⟨true, b ++ [t]⟩, false, [⟨"DEBUG", "Recognized: " ++ t⟩],
        [PrintMsg.listening, PrintMsg.recognizedText t]) := by
  have hsf : strContains (str_lower t) startPhrase = false ∧
      strContains (str_lower t) finishPhrase = false := by
    have h3' := h3
    simp only [containsTrigger, Bool.or_eq_false_iff] at h3'
    exact h3'
  simp [loop_step, recognize_speech, handle_command, h1, h2, hsf.1, hsf.2, h3]

/-- One iteration on a start-trigger utterance while idle: buffer cleared,
recording switched on, the utterance itself not appended. -/
lemma loop_step_start_idle (t : String) (b : List String)
    (h1 : str_strip t = t)
    (hs : strContains (str_lower t) startPhrase = true) :
    loop_step (some (RecogFate.ok t)) ⟨false, b⟩ =
      (⟨true, []⟩, false,
        [⟨"DEBUG", "Recognized: " ++ t⟩, ⟨"INFO", "Recording started."⟩],
        [PrintMsg.listening, PrintMsg.recognizedText t, PrintMsg.recordingStarted]) := by
  have he := ne_empty_of_start t hs
  simp [loop_step, recognize_speech, handle_command, containsTrigger, h1, he, hs]

/-- One iteration on a stop-trigger utterance mid-session: transcript logged,
exit signalled. -/
lemma loop_step_finish_rec (t : String) (b : List String)
    (h1 : str_strip t = t)
    (hf : strContains (str_lower t) finishPhrase = true)
    (hs : strContains (str_lower t) startPhrase = false) :
    loop_step (some (RecogFate.ok t)) ⟨true, b⟩ =
      (⟨false, b⟩, true,
        [⟨"DEBUG", "Recognized: " ++ t⟩,
         ⟨"INFO", "Recording stopped. Text: " ++ joinSpace b⟩,
         ⟨"INFO", "Program finished by user command."⟩],
        [PrintMsg.listening, PrintMsg.recognizedText t, PrintMsg.recordingFinished,
         PrintMsg.savedToLogs]) := by
  have he := ne_empty_of_finish t hf
  simp [loop_step, recognize_speech, handle_command, h1, he, hs, hf]

/-- Running a block of plain utterances mid-session appends them to the buffer
in capture order and logs one DEBUG entry each, then continues. -/
lemma run_plains (plains : List String) : ∀ (rest : List LoopInput) (b : List String),
    (∀ t ∈ plains, str_strip t = t ∧ (t == "") = false ∧
      containsTrigger (str_lower t) = false) →
    run_loop (plains.map (fun t => LoopInput.iter (some (RecogFate.ok t))) ++ rest)
        ⟨true, b⟩ =
      ((run_loop rest ⟨true, b ++ plains⟩).1,
       plains.map (fun t => (⟨"DEBUG", "Recognized: " ++ t⟩ : LogEvent)) ++
         (run_loop rest ⟨true, b ++ plains⟩).2.1,
       (run_loop rest ⟨true, b ++ plains⟩).2.2) := by
  induction plains with
  | nil =>
    intro rest b _
    simp
  | cons t ts ih =>
    intro rest b h
    obtain ⟨h1, h2, h3⟩ := h t (List.mem_cons_self t ts)
    have hts : ∀ u ∈ ts, str_strip u = u ∧ (u == "") = false ∧
        containsTrigger (str_lower u) = false :=
      fun u hu => h u (List.mem_cons_of_mem t hu)
    rw [List.map_cons, List.cons_append,
      run_loop_iter_cons _ _ _ (by rw [loop_step_plain t b h1 h2 h3]),
      loop_step_plain t b h1 h2 h3]
    simp only
    rw [ih rest (b ++ [t]) hts]
    simp [List.append_assoc]

/-- A full session run: start trigger from the initial state, a block of plain
utterances, then a stop trigger; the loop terminates with the buffered
utterances joined as the logged transcript. -/
lemma run_session (startT stopT : String) (plains : List String)
    (hS1 : str_strip startT = startT)
    (hS2 : strContains (str_lower startT) startPhrase = true)
    (hF1 : str_strip stopT = stopT)
    (hF2 : strContains (str_lower stopT) finishPhrase = true)
    (hF3 : strContains (str_lower stopT) startPhrase = false)
    (hP : ∀ t ∈ plains, str_strip t = t ∧ (t == "") = false ∧
      containsTrigger (str_lower t) = false) :
    run_loop ((startT :: (plains ++ [stopT])).map
        (fun t => LoopInput.iter (some (RecogFate.ok t)))) initState =
      (⟨false, plains⟩,
       [⟨"DEBUG", "Recognized: " ++ startT⟩, ⟨"INFO", "Recording started."⟩] ++
         plains.map (fun t => (⟨"DEBUG", "Recognized: " ++ t⟩ : LogEvent)) ++
         [⟨"DEBUG", "Recognized: " ++ stopT⟩,
          ⟨"INFO", "Recording stopped. Text: " ++ joinSpace plains⟩,
          ⟨"INFO", "Program finished by user command."⟩],
       true) := by
  have hstep1 := loop_step_start_idle startT [] hS1 hS2
  rw [List.map_cons, show initState = (⟨false, []⟩ : LoopState) from rfl,
    run_loop_iter_cons _ _ _ (by rw [hstep1]), hstep1]
  simp only [List.map_append, List.map_cons, List.map_nil]
  rw [run_plains plains [LoopInput.iter (some (RecogFate.ok stopT))] [] hP]
  have hstep2 := loop_step_finish_rec stopT ([] ++ plains) hF1 hF2 hF3
  rw [run_loop_iter_exit _ _ _ (by rw [hstep2]), hstep2]
  simp

/-- C1: for a session consisting of a start-trigger utterance while idle, N
plain utterances (non-empty, containing neither trigger), and a stop-trigger
utterance, the loop terminates and the full log records the N utterances
buffered in capture order, with the final transcript being exactly their
space-separated join. -/
theorem c1_session_transcript (startT stopT : String) (plains : List String)
    (hS1 : str_strip startT = startT)
    (hS2 : strContains (str_lower startT) startPhrase = true)
    (hF1 : str_strip stopT = stopT)
    (hF2 : strContains (str_lower stopT) finishPhrase = true)
    (hF3 : strContains (str_lower stopT) startPhrase = false)
    (hP : ∀ t ∈ plains, str_strip t = t ∧ (t == "") = false ∧
      containsTrigger (str_lower t) = false) :
    record_loop ((startT :: (plains ++ [stopT])).map
        (fun t => LoopInput.iter (some (RecogFate.ok t)))) =
      some ([⟨"INFO", "Program started."⟩,
             ⟨"DEBUG", "Recognized: " ++ startT⟩,
             ⟨"INFO", "Recording started."⟩] ++
        plains.map (fun t => (⟨"DEBUG", "Recognized: " ++ t⟩ : LogEvent)) ++
        [⟨"DEBUG", "Recognized: " ++ stopT⟩,
         ⟨"INFO", "Recording stopped. Text: " ++ joinSpace plains⟩,
         ⟨"INFO", "Program finished by user command."⟩,
         ⟨"INFO", "Program closed."⟩]) := by
  unfold record_loop
  rw [run_session startT stopT plains hS1 hS2 hF1 hF2 hF3 hP]
  simp [List.append_assoc]

/-- Witness for C1: Scenario A — the four concrete utterances yield exactly the
transcript "hello world this is a test" and a terminated (exited) run. -/
theorem c1_session_transcript_witness :
    record_loop [LoopInput.iter (some (RecogFate.ok "start my friend")),
                 LoopInput.iter (some (RecogFate.ok "hello world")),
                 LoopInput.iter (some (RecogFate.ok "this is a test")),
                 LoopInput.iter (some (RecogFate.ok "finish my friend"))] =
      some [⟨"INFO", "Program started."⟩,
            ⟨"DEBUG", "Recognized: start my friend"⟩,
            ⟨"INFO", "Recording started."⟩,
            ⟨"DEBUG", "Recognized: hello world"⟩,
            ⟨"DEBUG", "Recognized: this is a test"⟩,
            ⟨"DEBUG", "Recognized: finish my friend"⟩,
            ⟨"INFO", "Recording stopped. Text: hello world this is a test"⟩,
            ⟨"INFO", "Program finished by user command."⟩,
            ⟨"INFO", "Program closed."⟩] := by
  have h := c1_session_transcript "start my friend" "finish my friend"
    ["hello world", "this is a test"] (by decide) (by decide) (by decide) (by decide)
    (by decide) (by decide)
  exact h

end AudioText
